import Mathlib

/-!
Shallow embedding of the zero-trust gateway (Go sources) and proofs about it.

Conventions used throughout:
* Go byte slices and byte-valued strings (keys, nonces, signatures, hex text)
  are modelled as `List Nat` (one `Nat` per byte); principal identifiers,
  role names, statuses and error messages are Lean `String`s.
* Unix-second clocks (`time.Now().Unix()`) are `Int` parameters named `now`;
  nanosecond clocks (`time.Time` comparisons in the middleware and rate
  limiter) are `Nat` parameters.
* A Go method that may mutate its receiver is a function returning the new
  state together with its result; an error return leaves the state unchanged
  exactly where the Go code does.
* Ed25519 signature verification and AES-GCM opening are abstracted as
  function parameters, since the claims under study depend only on which
  bytes are passed to them, never on the internals of the primitives.
-/

namespace ZeroTrust

/-- Byte strings: one `Nat` per byte. -/
abbrev Bytes := List Nat

/-! ## Hex codec (pkg/crypto/engine.go, encoding/hex) -/

/-- Lowercase hex digit for a value in 0..15, as its ASCII code
(as `hex.EncodeToString` produces). -/
def hexDigitChar (n : Nat) : Nat :=
  if n < 10 then 48 + n else 87 + n

/-- `hex.EncodeToString`: each byte becomes two lowercase hex digits. -/
def hexEncode (bs : Bytes) : Bytes :=
  bs.flatMap (fun b => [hexDigitChar (b / 16), hexDigitChar (b % 16)])

/-- Value of one hex digit character (`hex.DecodeString` accepts both cases). -/
def hexDigitVal (c : Nat) : Option Nat :=
  if 48 ≤ c ∧ c ≤ 57 then some (c - 48)
  else if 97 ≤ c ∧ c ≤ 102 then some (c - 87)
  else if 65 ≤ c ∧ c ≤ 70 then some (c - 55)
  else none

/-- `hex.DecodeString`: fails on odd length or a non-hex character. -/
def hexDecode : Bytes → Option Bytes
  | [] => some []
  | [_] => none
  | hi :: lo :: rest =>
    match hexDigitVal hi, hexDigitVal lo, hexDecode rest with
    | some h, some l, some r => some ((h * 16 + l) :: r)
    | _, _, _ => none

/-- Abstract Ed25519 verification oracle: public key, message, signature. -/
abbrev SigVerifier := Bytes → Bytes → Bytes → Bool

/-- `Engine.HexToPublicKey`: hex-decode then insist on 32 bytes. -/
def hexToPublicKey (h : Bytes) : Option Bytes :=
  match hexDecode h with
  | none => none
  | some bs => if bs.length = 32 then some bs else none

/-- Abstract AES-256-GCM `gcm.Open` primitive: key, nonce, ciphertext;
`none` is an authentication failure. -/
abbrev GcmOpen := Bytes → Bytes → Bytes → Option Bytes

/-- Outcome of `Engine.DecryptData`: a plaintext, a returned error, or a
Go runtime panic. -/
inductive DecResult where
  | ok (plaintext : Bytes)
  | err (message : String)
  | panics
deriving DecidableEq

/-- `Engine.DecryptData`: reject a key that is not 32 bytes; then
`ciphertext[:12]` / `ciphertext[12:]` split off the GCM nonce — which
slices out of bounds (a runtime panic) when the blob is shorter than 12
bytes — and the remainder goes to `gcm.Open`. -/
def decryptData (gcmOpen : GcmOpen) (key ciphertext : Bytes) : DecResult :=
  if key.length ≠ 32 then .err "key must be 32 bytes"
  else if ciphertext.length < 12 then .panics
  else
    match gcmOpen key (ciphertext.take 12) (ciphertext.drop 12) with
    | some plaintext => .ok plaintext
    | none => .err "message authentication failed"

/-! ## Audit log (pkg/audit/logger.go) -/

/-- One audit event as `Logger.LogEvent` records it (the free-form details
map is omitted: no claim inspects it). -/
structure AuditEvent where
  eventType : String
  agentID : String
  action : String
  status : String
  timestamp : Int
deriving DecidableEq

/-! ## Identity registry (pkg/identity/manager.go) -/

/-- An `identity.Agent` record. `publicKeyHex`, `privateKeyHex` and `nonce`
hold the bytes of the Go hex strings stored in the record. -/
structure Agent where
  agentID : String
  publicKeyHex : Bytes
  privateKeyHex : Bytes
  nonce : Bytes
  createdAt : Int
  expiresAt : Int
  status : String
deriving DecidableEq

/-- Go map update on an association list: replace the binding if the key is
present, append it otherwise. -/
def mapSet {β : Type} (k : String) (v : β) : List (String × β) → List (String × β)
  | [] => [(k, v)]
  | p :: rest => if p.1 = k then (k, v) :: rest else p :: mapSet k v rest

/-- `identity.Manager`: the agents map plus its audit logger. -/
structure ManagerState where
  agents : List (String × Agent)
  events : List AuditEvent
deriving DecidableEq

/-- The random material `RegisterAgent` draws: an Ed25519 keypair and the 16
raw nonce bytes. -/
structure KeyMaterial where
  publicKey : Bytes
  privateKey : Bytes
  nonceBytes : Bytes
deriving DecidableEq

/-- `Manager.RegisterAgent`: conflict if the id exists, otherwise store a new
active record (hex-encoded keys and nonce, expiry now + 3600) and append a
REGISTER/SUCCESS event. -/
def registerAgent (km : KeyMaterial) (now : Int) (agentID : String)
    (s : ManagerState) : Except String Agent × ManagerState :=
  match s.agents.lookup agentID with
  | some _ => (.error ("agent " ++ agentID ++ " already registered"), s)
  | none =>
    let agent : Agent :=
      { agentID := agentID
        publicKeyHex := hexEncode km.publicKey
        privateKeyHex := hexEncode km.privateKey
        nonce := hexEncode km.nonceBytes
        createdAt := now
        expiresAt := now + 3600
        status := "active" }
    (.ok agent,
      { agents := mapSet agentID agent s.agents
        events := s.events ++
          [{ eventType := "REGISTER", agentID := agentID,
             action := "agent_registration", status := "SUCCESS",
             timestamp := now }] })

/-- `Manager.VerifyAgent`, with the Ed25519 primitive abstracted as `V`.
The Go code passes `[]byte(agent.Nonce)` — the bytes of the stored hex
string — as the message to verify, and logs a VERIFY/SUCCESS event only on
success. (The two distinct public-key errors of `HexToPublicKey` are
collapsed into one message; no claim distinguishes them.) -/
def verifyAgent (V : SigVerifier) (now : Int) (agentID : String)
    (signatureHex nonceHex : Bytes) (s : ManagerState) :
    Except String Unit × ManagerState :=
  match s.agents.lookup agentID with
  | none => (.error "agent not found", s)
  | some agent =>
    if agent.status ≠ "active" then (.error "agent not active", s)
    else if agent.expiresAt < now then (.error "agent credentials expired", s)
    else
      match hexDecode signatureHex with
      | none => (.error "invalid signature format", s)
      | some signature =>
        if nonceHex ≠ agent.nonce then (.error "nonce mismatch", s)
        else
          match hexToPublicKey agent.publicKeyHex with
          | none => (.error "invalid public key", s)
          | some publicKey =>
            if V publicKey agent.nonce signature then
              (.ok (),
                { s with events := s.events ++
                    [{ eventType := "VERIFY", agentID := agentID,
                       action := "agent_verification", status := "SUCCESS",
                       timestamp := now }] })
            else (.error "signature verification failed", s)

/-- `Manager.RevokeAgent`: not-found error, otherwise set status to revoked
and append a REVOKE/SUCCESS event — unconditionally, with no check of the
current status. -/
def revokeAgent (now : Int) (agentID : String) (s : ManagerState) :
    Except String Unit × ManagerState :=
  match s.agents.lookup agentID with
  | none => (.error "agent not found", s)
  | some agent =>
    (.ok (),
      { agents := mapSet agentID { agent with status := "revoked" } s.agents
        events := s.events ++
          [{ eventType := "REVOKE", agentID := agentID,
             action := "agent_revocation", status := "SUCCESS",
             timestamp := now }] })

/-! ## Policy engine (pkg/policy/engine.go) -/

/-- A `policy.Role`. -/
structure Role where
  name : String
  permissions : List String
deriving DecidableEq

/-- `policy.PolicyEngine`: role table and per-agent role bindings. -/
structure PolicyEngine where
  roles : List (String × Role)
  agentRoles : List (String × List String)
deriving DecidableEq

/-- `NewPolicyEngine` with the three built-in roles of
`createDefaultRoles`. -/
def newPolicyEngine : PolicyEngine :=
  { roles :=
      [("admin", Role.mk "admin"
          ["agent:read", "agent:write", "agent:delete", "agent:verify",
           "audit:read"]),
       ("user", Role.mk "user" ["agent:read", "agent:verify"]),
       ("service", Role.mk "service" ["agent:read"])]
    agentRoles := [] }

/-- `PolicyEngine.AssignRole`: unknown role and duplicate binding are
errors; otherwise the role name is appended to the agent's binding list
(a missing map entry reads as the empty list, as a nil Go slice does). -/
def assignRole (pe : PolicyEngine) (agentID roleName : String) :
    Except String Unit × PolicyEngine :=
  match pe.roles.lookup roleName with
  | none => (.error ("role not found: " ++ roleName), pe)
  | some _ =>
    let existing := (pe.agentRoles.lookup agentID).getD []
    if roleName ∈ existing then
      (.error ("agent already has role: " ++ roleName), pe)
    else
      (.ok (), { pe with
        agentRoles := mapSet agentID (existing ++ [roleName]) pe.agentRoles })

/-- `PolicyEngine.RemoveRole`: removes the first occurrence of the role
from the agent's binding list. -/
def removeRole (pe : PolicyEngine) (agentID roleName : String) :
    Except String Unit × PolicyEngine :=
  match pe.agentRoles.lookup agentID with
  | none => (.error "agent has no roles", pe)
  | some roles =>
    if roleName ∈ roles then
      (.ok (), { pe with
        agentRoles := mapSet agentID (roles.erase roleName) pe.agentRoles })
    else (.error ("agent does not have role: " ++ roleName), pe)

/-- The inner loop shared by `CanPerform` and `checkPermissionFast`: does
the named role exist in the role table and list the action? -/
def roleGrants (pe : PolicyEngine) (action rn : String) : Bool :=
  match pe.roles.lookup rn with
  | none => false
  | some role => role.permissions.contains action

/-- `PolicyEngine.CanPerform`: false when the agent has no binding entry,
otherwise scan the bound role names. -/
def canPerform (pe : PolicyEngine) (agentID action : String) : Bool :=
  match pe.agentRoles.lookup agentID with
  | none => false
  | some roleNames => roleNames.any (roleGrants pe action)

/-- `PolicyEngine.GetAgentRoles` (a copy of the binding list; a missing
entry reads as the empty list). -/
def getAgentRoles (pe : PolicyEngine) (agentID : String) : List String :=
  (pe.agentRoles.lookup agentID).getD []

/-! ## Rate limiter (pkg/ratelimit/limiter.go) -/

/-- Nanoseconds per second: `elapsed.Seconds()` truncated to `int` is
nanosecond-difference division by this constant. -/
def nsPerSecond : Nat := 1000000000

/-- A `ratelimit.AgentBucket`; times are nanosecond clocks. -/
structure AgentBucket where
  tokens : Nat
  lastFill : Nat
  requests : Nat
  lastReset : Nat
deriving DecidableEq

/-- `ratelimit.RateLimiter` (bucket map plus configuration). -/
structure RateLimiter where
  agents : List (String × AgentBucket)
  requestsPerSecond : Nat
  burstSize : Nat
deriving DecidableEq

/-- `NewRateLimiter`. -/
def newRateLimiter (requestsPerSecond burstSize : Nat) : RateLimiter :=
  { agents := [], requestsPerSecond := requestsPerSecond,
    burstSize := burstSize }

/-- The refill step of `AllowRequest`: add `⌊elapsed seconds⌋ · rps` tokens
capped at `burst`, and move `lastFill` only when `tokensToAdd > 0`. -/
def refillBucket (rps burst : Nat) (now : Nat) (b : AgentBucket) :
    AgentBucket :=
  let tokensToAdd := ((now - b.lastFill) / nsPerSecond) * rps
  if 0 < tokensToAdd then
    { b with tokens := min (b.tokens + tokensToAdd) burst, lastFill := now }
  else b

/-- Refill-then-consume on a single bucket (the body of `AllowRequest`
once the bucket is in hand). -/
def stepBucket (rps burst : Nat) (now : Nat) (b : AgentBucket) :
    Bool × AgentBucket :=
  let b1 := refillBucket rps burst now b
  if 0 < b1.tokens then
    (true, { b1 with tokens := b1.tokens - 1, requests := b1.requests + 1 })
  else (false, b1)

/-- `RateLimiter.AllowRequest`: locate or create the bucket (tokens = burst,
lastFill = now at creation), refill, then consume one token if available. -/
def allowRequest (rl : RateLimiter) (now : Nat) (agentID : String) :
    Bool × RateLimiter :=
  let bucket := (rl.agents.lookup agentID).getD
    { tokens := rl.burstSize, lastFill := now, requests := 0,
      lastReset := now }
  let r := stepBucket rl.requestsPerSecond rl.burstSize now bucket
  (r.1, { rl with agents := mapSet agentID r.2 rl.agents })

/-- A sequence of `AllowRequest` calls for one principal at the given
times, counting how many were admitted. -/
def runAllow (agentID : String) : List Nat → RateLimiter → Nat × RateLimiter
  | [], rl => (0, rl)
  | t :: ts, rl =>
    let r := allowRequest rl t agentID
    let rest := runAllow agentID ts r.2
    ((if r.1 then 1 else 0) + rest.1, rest.2)

/-- The same call sequence viewed on the single bucket. -/
def runBucket (rps burst : Nat) : List Nat → AgentBucket → Nat × AgentBucket
  | [], b => (0, b)
  | t :: ts, b =>
    let r := stepBucket rps burst t b
    let rest := runBucket rps burst ts r.2
    ((if r.1 then 1 else 0) + rest.1, rest.2)

/-! ## Anomaly detector (pkg/analytics/detector.go) -/

/-- An `analytics.AgentBehavior` profile (the float running averages are
omitted: the code never updates them and no claim reads them). -/
structure AgentBehavior where
  agentID : String
  requestCount : Nat
  failedAuthCount : Nat
  lastRequestTime : Int
  lastFailureTime : Int
  totalAnomalies : Nat
deriving DecidableEq

/-- An `analytics.Anomaly` (detail map omitted). -/
structure Anomaly where
  timestamp : Int
  agentID : String
  kind : String
  severity : String
deriving DecidableEq

/-- `analytics.AnomalyDetector` state with its default thresholds
(rate spike 100, failed auth 5). -/
structure AnomalyDetector where
  behaviors : List (String × AgentBehavior)
  anomalies : List Anomaly
deriving DecidableEq

def rateSpikeThreshold : Nat := 100
def failedAuthThreshold : Nat := 5

/-- `AnomalyDetector.RecordRequest` followed by its `checkRateSpike`. -/
def recordRequest (ad : AnomalyDetector) (now : Int) (agentID : String) :
    AnomalyDetector :=
  let behavior := (ad.behaviors.lookup agentID).getD
    { agentID := agentID, requestCount := 0, failedAuthCount := 0,
      lastRequestTime := now, lastFailureTime := 0, totalAnomalies := 0 }
  let b1 := { behavior with requestCount := behavior.requestCount + 1,
                            lastRequestTime := now }
  if rateSpikeThreshold < b1.requestCount then
    { behaviors := mapSet agentID
        { b1 with totalAnomalies := b1.totalAnomalies + 1 } ad.behaviors
      anomalies := ad.anomalies ++
        [{ timestamp := now, agentID := agentID, kind := "rate_spike",
           severity := "medium" }] }
  else { ad with behaviors := mapSet agentID b1 ad.behaviors }

/-- `AnomalyDetector.RecordFailedAuth` followed by its `checkBruteForce`. -/
def recordFailedAuth (ad : AnomalyDetector) (now : Int) (agentID : String) :
    AnomalyDetector :=
  let behavior := (ad.behaviors.lookup agentID).getD
    { agentID := agentID, requestCount := 0, failedAuthCount := 0,
      lastRequestTime := 0, lastFailureTime := 0, totalAnomalies := 0 }
  let b1 := { behavior with failedAuthCount := behavior.failedAuthCount + 1,
                            lastFailureTime := now }
  if failedAuthThreshold < b1.failedAuthCount then
    { behaviors := mapSet agentID
        { b1 with totalAnomalies := b1.totalAnomalies + 1 } ad.behaviors
      anomalies := ad.anomalies ++
        [{ timestamp := now, agentID := agentID, kind := "failed_auth",
           severity := "high" }] }
  else { ad with behaviors := mapSet agentID b1 ad.behaviors }

/-! ## Admission middleware (pkg/middleware/auth.go) -/

/-- The two request headers the pipeline reads. A missing header is the
empty value (`""` in Go; `[]` for the byte-valued signature header). -/
structure Request where
  agentID : String
  signature : Bytes
deriving DecidableEq

/-- A `middleware.cachedAgent` entry (expiry on the nanosecond clock). -/
structure CachedAgent where
  agent : Agent
  roles : List String
  expiresAt : Nat
deriving DecidableEq

/-- A `middleware.PendingVerification` entry. -/
structure PendingVerification where
  agentID : String
  signature : Bytes
  nonce : Bytes
  createdAt : Nat
  verified : Bool
deriving DecidableEq

/-- `middleware.AuthMiddleware`: the shared components plus the agent
cache, the pending-verification queue and the recently-verified map. -/
structure AuthMiddleware where
  identityMgr : ManagerState
  policyEngine : PolicyEngine
  rateLimiter : RateLimiter
  detector : AnomalyDetector
  agentCache : List (String × CachedAgent)
  cacheTTL : Nat
  pending : List (String × PendingVerification)
  verifiedAgents : List (String × Nat)
deriving DecidableEq

/-- `NewAuthMiddleware`: rate limiter 100 rps / burst 50, agent-cache TTL
30 s. -/
def newAuthMiddleware (identityMgr : ManagerState)
    (policyEngine : PolicyEngine) : AuthMiddleware :=
  { identityMgr := identityMgr
    policyEngine := policyEngine
    rateLimiter := newRateLimiter 100 50
    detector := { behaviors := [], anomalies := [] }
    agentCache := []
    cacheTTL := 30 * nsPerSecond
    pending := []
    verifiedAgents := [] }

/-- The per-route configuration of a `middleware.ProtectedHandler`. -/
structure HandlerConfig where
  requiredAction : String
  publicEndpoint : Bool
  requireVerify : Bool
deriving DecidableEq

/-- `AuthMiddleware.getFromCache`: a hit only while
`now ≤ expiresAt` (`time.Now().After` is strict). -/
def getFromCache (am : AuthMiddleware) (now : Nat) (agentID : String) :
    Option CachedAgent :=
  match am.agentCache.lookup agentID with
  | none => none
  | some cached => if cached.expiresAt < now then none else some cached

/-- `AuthMiddleware.cacheAgent`. -/
def cacheAgent (am : AuthMiddleware) (now : Nat) (agentID : String)
    (agent : Agent) (roles : List String) : AuthMiddleware :=
  let entry : CachedAgent :=
    { agent := agent, roles := roles, expiresAt := now + am.cacheTTL }
  { am with agentCache := mapSet agentID entry am.agentCache }

/-- `AuthMiddleware.checkPermissionFast`: scan the cached role names
against the engine's role table. -/
def checkPermissionFast (pe : PolicyEngine) (roles : List String)
    (action : String) : Bool :=
  roles.any (roleGrants pe action)

/-- `AuthMiddleware.isRecentlyVerified`: an unexpired entry in the
recently-verified map (`time.Now().Before` is strict). -/
def isRecentlyVerified (am : AuthMiddleware) (now : Nat)
    (agentID : String) : Bool :=
  match am.verifiedAgents.lookup agentID with
  | none => false
  | some expiresAt => now < expiresAt

/-- `AuthMiddleware.queueVerification`: at most one pending entry per
principal; a new submission overwrites the old one. -/
def queueVerification (am : AuthMiddleware) (now : Nat) (agentID : String)
    (signature : Bytes) (nonce : Bytes) : AuthMiddleware :=
  let entry : PendingVerification :=
    { agentID := agentID, signature := signature, nonce := nonce,
      createdAt := now, verified := false }
  { am with pending := mapSet agentID entry am.pending }

/-- The cache-or-registry lookup at the head of `ServeHTTP`: a cache hit
returns the cached record and roles unchanged; a miss loads the agent from
the identity manager, reads its roles and writes the cache. `none` means
the principal is unknown. -/
def resolveAgent (am : AuthMiddleware) (now : Nat) (agentID : String) :
    Option (Agent × List String × AuthMiddleware) :=
  match getFromCache am now agentID with
  | some cached => some (cached.agent, cached.roles, am)
  | none =>
    match am.identityMgr.agents.lookup agentID with
    | none => none
    | some agent =>
      let roles := getAgentRoles am.policyEngine agentID
      some (agent, roles, cacheAgent am now agentID agent roles)

/-- The decision `ServeHTTP` reaches: `sendError` with a status code and
message, or the call into the wrapped handler. -/
inductive Decision where
  | deny (status : Nat) (message : String)
  | granted
deriving DecidableEq

/-- `ProtectedHandler.ServeHTTP`: the admission pipeline. Public routes
skip every check. Then: extract the principal header (401), resolve the
principal (401, failed-auth recorded), check status (403, failed-auth
recorded), check the route permission (403, failed-auth recorded), consume
a rate token (429), and on verification-required routes demand the
signature header (400) — unconditionally — queueing an asynchronous
verification only when the principal is not recently verified. Admission
records the request with the anomaly detector. -/
def serveHTTP (cfg : HandlerConfig) (now : Nat) (req : Request)
    (am : AuthMiddleware) : Decision × AuthMiddleware :=
  if cfg.publicEndpoint then (.granted, am)
  else if req.agentID = "" then
    (.deny 401 "X-Agent-ID header required", am)
  else
    match resolveAgent am now req.agentID with
    | none =>
      (.deny 401 "agent not found",
        { am with detector := recordFailedAuth am.detector now req.agentID })
    | some (agent, roles, am1) =>
      if agent.status ≠ "active" then
        (.deny 403 ("agent status is " ++ agent.status),
          { am1 with detector :=
              recordFailedAuth am1.detector now req.agentID })
      else if cfg.requiredAction ≠ "" ∧
          ¬checkPermissionFast am1.policyEngine roles cfg.requiredAction then
        (.deny 403 ("agent not authorized for action: " ++ cfg.requiredAction),
          { am1 with detector :=
              recordFailedAuth am1.detector now req.agentID })
      else
        let rlr := allowRequest am1.rateLimiter now req.agentID
        let am2 := { am1 with rateLimiter := rlr.2 }
        if ¬rlr.1 then (.deny 429 "rate limit exceeded", am2)
        else if cfg.requireVerify ∧ req.signature = [] then
          (.deny 400 "X-Signature header required for verification", am2)
        else
          let am3 :=
            if cfg.requireVerify ∧ ¬isRecentlyVerified am2 now req.agentID
            then queueVerification am2 now req.agentID req.signature
              agent.nonce
            else am2
          (.granted,
            { am3 with detector := recordRequest am3.detector now req.agentID })

/-! ## Association-list lemmas -/

theorem lookup_mapSet_self {β : Type} (k : String) (v : β) :
    ∀ l : List (String × β), (mapSet k v l).lookup k = some v := by
  intro l
  induction l with
  | nil => simp [mapSet, List.lookup]
  | cons p rest ih =>
    by_cases h : p.1 = k
    · simp [mapSet, h, List.lookup]
    · have hne : (k == p.1) = false := by
        simpa [beq_iff_eq] using fun he => h he.symm
      simp [mapSet, h, List.lookup, hne, ih]

theorem lookup_mapSet_ne {β : Type} {k q : String} (v : β) (h : q ≠ k) :
    ∀ l : List (String × β), (mapSet k v l).lookup q = l.lookup q := by
  intro l
  have hqk : (q == k) = false := by simpa [beq_iff_eq] using h
  induction l with
  | nil => simp [mapSet, List.lookup, hqk]
  | cons p rest ih =>
    by_cases hp : p.1 = k
    · subst hp; simp [mapSet, List.lookup, hqk]
    · simp [mapSet, hp, List.lookup, ih]

theorem isSome_lookup_mapSet {β : Type} {q : String} (k : String) (v : β)
    (l : List (String × β)) (h : (l.lookup q).isSome) :
    ((mapSet k v l).lookup q).isSome := by
  by_cases hqk : q = k
  · subst hqk; simp [lookup_mapSet_self]
  · rw [lookup_mapSet_ne v hqk]; exact h

/-! ## C9: policy decisions -/

theorem roleGrants_iff (pe : PolicyEngine) (action rn : String) :
    roleGrants pe action rn = true ↔
      ∃ role, pe.roles.lookup rn = some role ∧ action ∈ role.permissions := by
  unfold roleGrants
  cases h : pe.roles.lookup rn <;> simp [h]

/-- C9. `CanPerform(id, p)` is true exactly when some role currently bound
to the principal exists in the role table and lists `p` in its permission
set; in particular it is false for a principal with no binding entry (or an
empty one) and for any permission no bound role enumerates. -/
theorem canPerform_iff_some_bound_role_grants
    (pe : PolicyEngine) (agentID action : String) :
    canPerform pe agentID action = true ↔
      ∃ rn ∈ getAgentRoles pe agentID, ∃ role,
        pe.roles.lookup rn = some role ∧ action ∈ role.permissions := by
  unfold canPerform getAgentRoles
  cases h : pe.agentRoles.lookup agentID with
  | none => simp [h]
  | some roleNames =>
    simp only [h, Option.getD_some, List.any_eq_true]
    constructor
    · rintro ⟨rn, hmem, hg⟩
      exact ⟨rn, hmem, (roleGrants_iff pe action rn).mp hg⟩
    · rintro ⟨rn, hmem, hg⟩
      exact ⟨rn, hmem, (roleGrants_iff pe action rn).mpr hg⟩

/-! ## C10: decrypt on short inputs -/

/-- C10. With a 32-byte key, `DecryptData` panics (out-of-bounds slice of
the 12-byte nonce prefix) on every blob shorter than 12 bytes, and never
panics on a blob of at least 12 bytes: it is total only on inputs of length
at least 12. -/
theorem decrypt_short_input_panics (gcmOpen : GcmOpen) (key ct : Bytes)
    (hk : key.length = 32) :
    (ct.length < 12 → decryptData gcmOpen key ct = .panics) ∧
    (12 ≤ ct.length → decryptData gcmOpen key ct ≠ .panics) := by
  unfold decryptData
  constructor
  · intro h
    rw [if_neg (by omega), if_pos h]
  · intro h
    rw [if_neg (by omega), if_neg (by omega)]
    cases gcmOpen key (ct.take 12) (ct.drop 12) <;> simp

/-- Witness for C10: the all-zero 32-byte key with the empty blob panics. -/
theorem decrypt_short_input_panics_witness :
    decryptData (fun _ _ _ => none) (List.replicate 32 0) [] =
      DecResult.panics :=
  (decrypt_short_input_panics (fun _ _ _ => none) (List.replicate 32 0) []
    (by decide)).1 (by decide)

/-! ## C7: audit events of the registry verify operation -/

/-- The VERIFY/SUCCESS event `VerifyAgent` logs. -/
def verifySuccessEvent (agentID : String) (now : Int) : AuditEvent :=
  { eventType := "VERIFY", agentID := agentID,
    action := "agent_verification", status := "SUCCESS", timestamp := now }

/-- Amended C7. `VerifyAgent` appends exactly one VERIFY/SUCCESS event when
it succeeds; on any failure it returns its error with the registry state —
audit log included — unchanged: no VERIFY/FAILURE event is ever logged. -/
theorem verify_audit_events (V : SigVerifier) (now : Int) (agentID : String)
    (signatureHex nonceHex : Bytes) (s : ManagerState) :
    ((verifyAgent V now agentID signatureHex nonceHex s).1 = .ok () ∧
     ((verifyAgent V now agentID signatureHex nonceHex s).2).events =
       s.events ++ [verifySuccessEvent agentID now]) ∨
    ((verifyAgent V now agentID signatureHex nonceHex s).1 ≠ .ok () ∧
     (verifyAgent V now agentID signatureHex nonceHex s).2 = s) := by
  unfold verifyAgent
  cases s.agents.lookup agentID with
  | none => right; exact ⟨by simp, rfl⟩
  | some agent =>
    by_cases h1 : agent.status ≠ "active"
    · right; exact ⟨by simp [h1], by simp [h1]⟩
    · by_cases h2 : agent.expiresAt < now
      · right
        refine ⟨?_, ?_⟩ <;> simp [h1, h2]
      · cases hd : hexDecode signatureHex with
        | none => right; refine ⟨?_, ?_⟩ <;> simp [h1, h2, hd]
        | some signature =>
          by_cases h3 : nonceHex ≠ agent.nonce
          · right; refine ⟨?_, ?_⟩ <;> simp [h1, h2, hd, h3]
          · cases hp : hexToPublicKey agent.publicKeyHex with
            | none => right; refine ⟨?_, ?_⟩ <;> simp [h1, h2, hd, h3, hp]
            | some publicKey =>
              by_cases h4 : V publicKey agent.nonce signature
              · left
                refine ⟨?_, ?_⟩ <;> simp [h1, h2, hd, h3, hp, h4,
                  verifySuccessEvent]
              · right; refine ⟨?_, ?_⟩ <;> simp [h1, h2, hd, h3, hp, h4]

/-- Counterexample to C7 as stated: a failing `VerifyAgent` call (unknown
id) appends no VERIFY/FAILURE event — the audit log stays empty. -/
theorem verify_failure_appends_no_event :
    (verifyAgent (fun _ _ _ => true) 0 "x" [] []
        { agents := [], events := [] }).1 = .error "agent not found" ∧
    ((verifyAgent (fun _ _ _ => true) 0 "x" [] []
        { agents := [], events := [] }).2).events = [] := by
  constructor <;> rfl

/-! ## C8: revoke semantics -/

/-- The REVOKE/SUCCESS event `RevokeAgent` logs. -/
def revokeSuccessEvent (agentID : String) (now : Int) : AuditEvent :=
  { eventType := "REVOKE", agentID := agentID,
    action := "agent_revocation", status := "SUCCESS", timestamp := now }

/-- Amended C8. `RevokeAgent` returns ok for every existing principal —
including one already revoked, so it is idempotent on the status — but it
appends a REVOKE/SUCCESS audit event on every successful call, repeated
revocations included, not only on the active → revoked transition. -/
theorem revoke_existing_ok_and_logs (now : Int) (agentID : String)
    (s : ManagerState) (agent : Agent)
    (h : s.agents.lookup agentID = some agent) :
    revokeAgent now agentID s =
      (.ok (),
        ⟨mapSet agentID { agent with status := "revoked" } s.agents,
         s.events ++ [revokeSuccessEvent agentID now]⟩) := by
  unfold revokeAgent
  rw [h]
  rfl

/-- An already-revoked principal record. -/
def revokedAgent : Agent :=
  { agentID := "a", publicKeyHex := [], privateKeyHex := [], nonce := [],
    createdAt := 0, expiresAt := 3600, status := "revoked" }

/-- A registry holding one already-revoked principal. -/
def revokedState : ManagerState :=
  { agents := [("a", revokedAgent)], events := [] }

/-- Witness for C8 (amended): revoking the already-revoked principal
returns ok and appends one more REVOKE/SUCCESS event. -/
theorem revoke_existing_ok_and_logs_witness :
    revokeAgent 5 "a" revokedState =
      (.ok (),
        ⟨mapSet "a" { revokedAgent with status := "revoked" }
            revokedState.agents,
         revokedState.events ++ [revokeSuccessEvent "a" 5]⟩) :=
  revoke_existing_ok_and_logs 5 "a" revokedState revokedAgent rfl

/-- Counterexample to C8 as stated: a second revoke of an already-revoked
principal still returns ok but DOES append a further REVOKE event. -/
theorem revoke_again_still_logs :
    ((revokedState.agents.lookup "a").map Agent.status = some "revoked") ∧
    (revokeAgent 5 "a" revokedState).1 = .ok () ∧
    ((revokeAgent 5 "a" revokedState).2).events.length =
      revokedState.events.length + 1 :=
  ⟨rfl, rfl, rfl⟩

/-! ## C1: what the registry verify operation actually verifies -/

/-- Amended C1. For a registered principal, `VerifyAgent` returns ok
exactly when the status is active, the credentials are unexpired, the
supplied nonce equals the stored nonce, the signature hex decodes, the
stored public key decodes to 32 bytes, and the signature is valid — under
the stored public key — over the bytes of the STORED HEX-ENCODED NONCE
STRING (32 ASCII characters for the 16 raw nonce bytes), not over the raw
nonce bytes: the code passes `[]byte(agent.Nonce)` to Ed25519. -/
theorem verify_ok_iff (V : SigVerifier) (now : Int) (agentID : String)
    (signatureHex nonceHex : Bytes) (s : ManagerState) (agent : Agent)
    (hag : s.agents.lookup agentID = some agent) :
    (verifyAgent V now agentID signatureHex nonceHex s).1 = .ok () ↔
      (agent.status = "active" ∧ now ≤ agent.expiresAt ∧
       nonceHex = agent.nonce ∧
       ∃ signature, hexDecode signatureHex = some signature ∧
       ∃ publicKey, hexToPublicKey agent.publicKeyHex = some publicKey ∧
         V publicKey agent.nonce signature = true) := by
  unfold verifyAgent
  rw [hag]
  by_cases h1 : agent.status = "active"
  · by_cases h2 : agent.expiresAt < now
    · simp [h1, h2, not_le.mpr h2]
    · cases hd : hexDecode signatureHex with
      | none => simp [h1, h2, hd]
      | some signature =>
        by_cases h3 : nonceHex = agent.nonce
        · cases hp : hexToPublicKey agent.publicKeyHex with
          | none => simp [h1, h2, hd, h3, hp]
          | some publicKey =>
            by_cases h4 : V publicKey agent.nonce signature
            · simp [h1, not_lt.mp h2, hd, h3, hp, h4, h2]
            · simp [h1, h2, hd, h3, hp, h4]
        · simp [h1, h2, hd, h3]
  · simp [h1]

/-- An active, unexpired principal whose stored nonce is the hex encoding
of 16 raw bytes and whose stored public key is the hex encoding of 32
bytes. -/
def hexNonceAgent : Agent :=
  { agentID := "a", publicKeyHex := hexEncode (List.replicate 32 1),
    privateKeyHex := [], nonce := hexEncode (List.replicate 16 2),
    createdAt := 0, expiresAt := 1000, status := "active" }

/-- A registry holding `hexNonceAgent`. -/
def hexNonceState : ManagerState :=
  { agents := [("a", hexNonceAgent)], events := [] }

/-- A verification primitive that accepts a signature precisely over
16-byte messages — so over the 16 raw nonce bytes, and over no hex
re-encoding of them (32 characters). -/
def rawNonceVerifier : SigVerifier := fun _ message _ => message.length == 16

/-- Witness for C1 (amended): with a primitive that accepts everything,
the concrete call returns ok and every condition of the characterization
holds at the stored hex-string nonce. -/
theorem verify_ok_iff_witness :
    (verifyAgent (fun _ _ _ => true) 0 "a"
        (hexEncode (List.replicate 64 3)) hexNonceAgent.nonce
        hexNonceState).1 = .ok () ↔
      (hexNonceAgent.status = "active" ∧ (0 : Int) ≤ hexNonceAgent.expiresAt ∧
       hexNonceAgent.nonce = hexNonceAgent.nonce ∧
       ∃ signature,
         hexDecode (hexEncode (List.replicate 64 3)) = some signature ∧
       ∃ publicKey,
         hexToPublicKey hexNonceAgent.publicKeyHex = some publicKey ∧
         (fun _ _ _ => true : SigVerifier) publicKey hexNonceAgent.nonce
           signature = true) :=
  verify_ok_iff (fun _ _ _ => true) 0 "a" (hexEncode (List.replicate 64 3))
    hexNonceAgent.nonce hexNonceState hexNonceAgent rfl

/-- Counterexample to C1 as stated: a signature that IS valid (under the
abstracted Ed25519 primitive) over the stored 16 raw nonce bytes, with a
matching nonce and an active, unexpired principal, is REJECTED, because
the code verifies over the 32 hex characters of the stored nonce string
instead of the 16 raw bytes. -/
theorem verify_not_over_raw_nonce_bytes :
    rawNonceVerifier (List.replicate 32 1) (List.replicate 16 2)
      (List.replicate 64 3) = true ∧
    hexDecode hexNonceAgent.nonce = some (List.replicate 16 2) ∧
    hexDecode (hexEncode (List.replicate 64 3)) =
      some (List.replicate 64 3) ∧
    hexToPublicKey hexNonceAgent.publicKeyHex =
      some (List.replicate 32 1) ∧
    hexNonceAgent.status = "active" ∧ (0 : Int) ≤ hexNonceAgent.expiresAt ∧
    (verifyAgent rawNonceVerifier 0 "a" (hexEncode (List.replicate 64 3))
        hexNonceAgent.nonce hexNonceState).1 =
      .error "signature verification failed" :=
  ⟨rfl, rfl, rfl, rfl, rfl, by decide, rfl⟩

/-! ## C4: registration uniqueness -/

/-- `VerifyAgent` never changes the agents map (it only appends an audit
event on success). -/
theorem verifyAgent_agents (V : SigVerifier) (now : Int) (agentID : String)
    (signatureHex nonceHex : Bytes) (s : ManagerState) :
    ((verifyAgent V now agentID signatureHex nonceHex s).2).agents =
      s.agents := by
  unfold verifyAgent
  repeat' split
  all_goals rfl

/-- A registry operation; the randomness drawn by register and the
verification primitive appear as data. -/
inductive MOp where
  | reg (km : KeyMaterial) (now : Int) (agentID : String)
  | ver (V : SigVerifier) (now : Int) (agentID : String)
      (signatureHex nonceHex : Bytes)
  | rev (now : Int) (agentID : String)

/-- The registry state after one operation (its result discarded). -/
def applyMOp (s : ManagerState) : MOp → ManagerState
  | .reg km now agentID => (registerAgent km now agentID s).2
  | .ver V now agentID sh nh => (verifyAgent V now agentID sh nh s).2
  | .rev now agentID => (revokeAgent now agentID s).2

/-- The registry state after a sequence of operations. -/
def runMOps (s : ManagerState) : List MOp → ManagerState
  | [] => s
  | op :: ops => runMOps (applyMOp s op) ops

/-- A present principal stays present across every registry operation:
nothing ever removes a record. -/
theorem applyMOp_preserves_member (s : ManagerState) (op : MOp)
    (agentID : String) (h : (s.agents.lookup agentID).isSome) :
    ((applyMOp s op).agents.lookup agentID).isSome := by
  cases op with
  | reg km now rid =>
    simp only [applyMOp, registerAgent]
    cases hl : s.agents.lookup rid with
    | some a => exact h
    | none => exact isSome_lookup_mapSet rid _ _ h
  | ver V now rid sh nh =>
    simp only [applyMOp]
    rw [verifyAgent_agents]
    exact h
  | rev now rid =>
    simp only [applyMOp, revokeAgent]
    cases hl : s.agents.lookup rid with
    | none => exact h
    | some a => exact isSome_lookup_mapSet rid _ _ h

theorem runMOps_preserves_member (agentID : String) :
    ∀ (ops : List MOp) (s : ManagerState),
      (s.agents.lookup agentID).isSome →
      ((runMOps s ops).agents.lookup agentID).isSome := by
  intro ops
  induction ops with
  | nil => intro s h; exact h
  | cons op ops ih =>
    intro s h
    exact ih _ (applyMOp_preserves_member s op agentID h)

/-- `RegisterAgent` on a present id is a conflict error that changes
nothing: no record touched, no audit event appended. -/
theorem registerAgent_conflict (km : KeyMaterial) (now : Int)
    (agentID : String) (s : ManagerState)
    (h : (s.agents.lookup agentID).isSome) :
    registerAgent km now agentID s =
      (.error ("agent " ++ agentID ++ " already registered"), s) := by
  unfold registerAgent
  cases hl : s.agents.lookup agentID with
  | none => rw [hl] at h; simp at h
  | some a => rfl

/-- A successful `RegisterAgent` leaves the id present. -/
theorem registerAgent_ok_member (km : KeyMaterial) (now : Int)
    (agentID : String) (s : ManagerState) (a : Agent) (s₁ : ManagerState)
    (hreg : registerAgent km now agentID s = (.ok a, s₁)) :
    (s₁.agents.lookup agentID).isSome := by
  unfold registerAgent at hreg
  cases hl : s.agents.lookup agentID with
  | some b =>
    rw [hl] at hreg
    exact absurd (congrArg Prod.fst hreg) (by simp)
  | none =>
    rw [hl] at hreg
    have h2 := congrArg Prod.snd hreg
    simp only at h2
    rw [← h2]
    simp [lookup_mapSet_self]

/-- C4. Once `register(id)` has succeeded, every later `register(id)` —
after any sequence of further register/verify/revoke operations — returns
the conflict error and returns the registry state unchanged: the existing
record is not modified, no record is inserted, and no REGISTER audit event
is appended. -/
theorem register_conflict_stable (km : KeyMaterial) (now : Int)
    (agentID : String) (s : ManagerState) (a : Agent) (s₁ : ManagerState)
    (hreg : registerAgent km now agentID s = (.ok a, s₁))
    (ops : List MOp) (km₂ : KeyMaterial) (now₂ : Int) :
    registerAgent km₂ now₂ agentID (runMOps s₁ ops) =
      (.error ("agent " ++ agentID ++ " already registered"),
       runMOps s₁ ops) :=
  registerAgent_conflict km₂ now₂ agentID (runMOps s₁ ops)
    (runMOps_preserves_member agentID ops s₁
      (registerAgent_ok_member km now agentID s a s₁ hreg))

/-- The empty registry. -/
def emptyRegistry : ManagerState := { agents := [], events := [] }

/-- Degenerate key material (register does not inspect it). -/
def zeroKm : KeyMaterial :=
  { publicKey := [], privateKey := [], nonceBytes := [] }

/-- The record a register of "a" at time 0 with `zeroKm` produces. -/
def regA : Agent :=
  { agentID := "a", publicKeyHex := [], privateKeyHex := [], nonce := [],
    createdAt := 0, expiresAt := 3600, status := "active" }

/-- The REGISTER event that register appends. -/
def regEvent : AuditEvent :=
  { eventType := "REGISTER", agentID := "a",
    action := "agent_registration", status := "SUCCESS", timestamp := 0 }

/-- The registry after that register. -/
def regState : ManagerState :=
  { agents := mapSet "a" regA [], events := [regEvent] }

/-- Witness for C4: after registering "a" and then revoking it, a second
register of "a" is a conflict that leaves the state untouched. -/
theorem register_conflict_stable_witness :
    registerAgent zeroKm 1 "a" (runMOps regState [MOp.rev 2 "a"]) =
      (.error ("agent " ++ "a" ++ " already registered"),
       runMOps regState [MOp.rev 2 "a"]) :=
  register_conflict_stable zeroKm 0 "a" emptyRegistry regA regState rfl
    [MOp.rev 2 "a"] zeroKm 1

/-! ## C2: the STATUS stage of the admission pipeline -/

/-- Amended C2. The pipeline's STATUS stage denies 403 whenever the
resolved principal's status is not active — before the authorization, rate
and verify stages — but it performs NO expiry check: a principal whose
credentials have expired (`now > expires_at` on the Unix-second clock)
while its stored status still reads active passes the STATUS stage and is
admitted when the remaining stages pass. -/
theorem status_stage_checks_only_status (cfg : HandlerConfig) (now : Nat)
    (req : Request) (am : AuthMiddleware) (agent : Agent)
    (roles : List String) (am1 : AuthMiddleware)
    (hpub : cfg.publicEndpoint = false) (hid : req.agentID ≠ "")
    (hres : resolveAgent am now req.agentID = some (agent, roles, am1)) :
    (agent.status ≠ "active" →
      serveHTTP cfg now req am =
        (.deny 403 ("agent status is " ++ agent.status),
         { am1 with detector :=
             recordFailedAuth am1.detector now req.agentID })) ∧
    (agent.status = "active" →
      agent.expiresAt < ((now / nsPerSecond : Nat) : Int) →
      (cfg.requiredAction = "" ∨
        checkPermissionFast am1.policyEngine roles cfg.requiredAction =
          true) →
      (allowRequest am1.rateLimiter now req.agentID).1 = true →
      cfg.requireVerify = false →
      (serveHTTP cfg now req am).1 = .granted) := by
  constructor
  · intro hst
    unfold serveHTTP
    simp [hpub, hid, hres, hst]
  · intro hst hexp hperm hrate hver
    unfold serveHTTP
    rcases hperm with h | h <;>
      simp [hpub, hid, hres, hst, hrate, hver, h]

/-- An expired-but-active principal record: `expires_at` is 0. -/
def expiredActiveAgent : Agent :=
  { agentID := "b", publicKeyHex := [], privateKeyHex := [], nonce := [],
    createdAt := 0, expiresAt := 0, status := "active" }

/-- A long-lived agent-cache entry for `expiredActiveAgent` carrying the
admin role. -/
def expiredActiveEntry : CachedAgent :=
  { agent := expiredActiveAgent, roles := ["admin"],
    expiresAt := 1000000000000000 }

/-- A middleware whose agent cache holds `expiredActiveAgent` with the
admin role (cache entry valid on the nanosecond clock). -/
def expiredActiveMw : AuthMiddleware :=
  { newAuthMiddleware
      { agents := [("b", expiredActiveAgent)], events := [] }
      newPolicyEngine with
    agentCache := [("b", expiredActiveEntry)] }

/-- A protected route requiring agent:read, without verification. -/
def readRoute : HandlerConfig :=
  { requiredAction := "agent:read", publicEndpoint := false,
    requireVerify := false }

/-- Witness for C2 (amended), at nanosecond time 2·10⁹ = Unix second 2,
past the expiry 0 of the active principal. -/
theorem status_stage_checks_only_status_witness :
    (expiredActiveAgent.status ≠ "active" →
      serveHTTP readRoute 2000000000 { agentID := "b", signature := [] }
          expiredActiveMw =
        (.deny 403 ("agent status is " ++ expiredActiveAgent.status),
         { expiredActiveMw with detector := recordFailedAuth expiredActiveMw.detector 2000000000 "b" })) ∧
    (expiredActiveAgent.status = "active" →
      expiredActiveAgent.expiresAt <
        ((2000000000 / nsPerSecond : Nat) : Int) →
      (readRoute.requiredAction = "" ∨
        checkPermissionFast expiredActiveMw.policyEngine ["admin"]
          readRoute.requiredAction = true) →
      (allowRequest expiredActiveMw.rateLimiter 2000000000 "b").1 = true →
      readRoute.requireVerify = false →
      (serveHTTP readRoute 2000000000
          { agentID := "b", signature := [] } expiredActiveMw).1 =
        .granted) :=
  status_stage_checks_only_status readRoute 2000000000
    { agentID := "b", signature := [] } expiredActiveMw expiredActiveAgent
    ["admin"] expiredActiveMw rfl (by decide) rfl

/-- Counterexample to C2 as stated: the request of the expired-but-active
principal is ADMITTED by the pipeline, not denied 403, because no stage
consults `expires_at`. -/
theorem expired_principal_admitted :
    expiredActiveAgent.status = "active" ∧
    expiredActiveAgent.expiresAt < ((2000000000 / nsPerSecond : Nat) : Int) ∧
    (serveHTTP readRoute 2000000000 { agentID := "b", signature := [] }
        expiredActiveMw).1 = .granted :=
  ⟨rfl, by decide, rfl⟩

/-! ## C5: the signature header and the recently-verified cache -/

/-- Amended C5. On a verification-required route the pipeline demands the
signature header UNCONDITIONALLY once the earlier stages pass: a request
without `X-Signature` is denied 400 even when the principal's
recently-verified cache entry is still unexpired. The cache only decides
whether a present signature is enqueued for asynchronous verification. -/
theorem signature_required_even_when_cached (cfg : HandlerConfig)
    (now : Nat) (req : Request) (am : AuthMiddleware) (agent : Agent)
    (roles : List String) (am1 : AuthMiddleware)
    (hpub : cfg.publicEndpoint = false) (hid : req.agentID ≠ "")
    (hres : resolveAgent am now req.agentID = some (agent, roles, am1))
    (hactive : agent.status = "active")
    (hperm : cfg.requiredAction = "" ∨
      checkPermissionFast am1.policyEngine roles cfg.requiredAction = true)
    (hrate : (allowRequest am1.rateLimiter now req.agentID).1 = true)
    (hver : cfg.requireVerify = true) (hsig : req.signature = [])
    (hcached : isRecentlyVerified am1 now req.agentID = true) :
    (serveHTTP cfg now req am).1 =
      .deny 400 "X-Signature header required for verification" := by
  unfold serveHTTP
  rcases hperm with h | h <;>
    simp [hpub, hid, hres, hactive, hrate, hver, hsig, h]

/-- A middleware like `expiredActiveMw` whose recently-verified cache
holds the principal with an unexpired entry. -/
def cachedVerifiedMw : AuthMiddleware :=
  { expiredActiveMw with verifiedAgents := [("b", 1000000000000000)] }

/-- The verification-required backend route. -/
def execRoute : HandlerConfig :=
  { requiredAction := "agent:read", publicEndpoint := false,
    requireVerify := true }

/-- Witness for C5 (amended): the recently-verified principal without a
signature header is still denied 400. -/
theorem signature_required_even_when_cached_witness :
    (serveHTTP execRoute 2000000000 { agentID := "b", signature := [] }
        cachedVerifiedMw).1 =
      .deny 400 "X-Signature header required for verification" :=
  signature_required_even_when_cached execRoute 2000000000
    { agentID := "b", signature := [] } cachedVerifiedMw
    expiredActiveAgent ["admin"] cachedVerifiedMw rfl (by decide) rfl rfl
    (Or.inr rfl) rfl rfl rfl rfl

/-- Counterexample to C5 as stated: a principal whose recently-verified
cache entry is unexpired is NOT admitted without a signature header — the
request is denied 400. -/
theorem cached_principal_still_needs_signature :
    isRecentlyVerified cachedVerifiedMw 2000000000 "b" = true ∧
    (serveHTTP execRoute 2000000000 { agentID := "b", signature := [] }
        cachedVerifiedMw).1 ≠ .granted ∧
    (serveHTTP execRoute 2000000000 { agentID := "b", signature := [] }
        cachedVerifiedMw).1 =
      .deny 400 "X-Signature header required for verification" :=
  ⟨rfl, by decide, rfl⟩

/-! ## C6: audit events on pipeline denials -/

/-- The cache-or-registry resolution step never changes the identity
manager (the cache write touches only the middleware's own cache). -/
theorem resolveAgent_identityMgr (am : AuthMiddleware) (now : Nat)
    (agentID : String) (agent : Agent) (roles : List String)
    (am1 : AuthMiddleware)
    (h : resolveAgent am now agentID = some (agent, roles, am1)) :
    am1.identityMgr = am.identityMgr := by
  unfold resolveAgent at h
  cases hc : getFromCache am now agentID with
  | some cached =>
    rw [hc] at h
    simp only [Option.some.injEq, Prod.mk.injEq] at h
    rw [← h.2.2]
  | none =>
    rw [hc] at h
    cases hl : am.identityMgr.agents.lookup agentID with
    | none => rw [hl] at h; cases h
    | some a =>
      rw [hl] at h
      simp only [Option.some.injEq, Prod.mk.injEq] at h
      rw [← h.2.2]
      rfl

/-- Amended C6. NO outcome of the admission pipeline — deny or admit —
appends an audit event: the deny paths only bump the anomaly detector's
failed-auth counters and the audit log is left exactly as it was. -/
theorem pipeline_appends_no_audit_event (cfg : HandlerConfig) (now : Nat)
    (req : Request) (am : AuthMiddleware) :
    ((serveHTTP cfg now req am).2).identityMgr.events =
      am.identityMgr.events := by
  unfold serveHTTP
  split
  · rfl
  split
  · rfl
  split
  · rfl
  next agent roles am1 hres =>
    have hmgr := resolveAgent_identityMgr am now req.agentID agent roles
      am1 hres
    split
    · simp [hmgr]
    split
    · simp [hmgr]
    repeat' split
    all_goals
      by_cases hr :
          (allowRequest am1.rateLimiter now req.agentID).1 = false <;>
        simp [hr, queueVerification, hmgr, apply_ite]

/-- A request carrying no principal header. -/
def noHeaderReq : Request := { agentID := "", signature := [] }

/-- A freshly constructed middleware over the empty registry. -/
def freshMw : AuthMiddleware :=
  newAuthMiddleware emptyRegistry newPolicyEngine

/-- Counterexample to C6 as stated: a request denied for a missing
principal header appends NO audit event — the audit log stays empty. -/
theorem deny_appends_no_audit_event :
    (serveHTTP readRoute 0 noHeaderReq freshMw).1 =
      .deny 401 "X-Agent-ID header required" ∧
    (serveHTTP readRoute 0 noHeaderReq freshMw).2.identityMgr.events =
      ([] : List AuditEvent) :=
  ⟨rfl, rfl⟩

/-! ## C3: rate conservation -/

theorem div_add_div_le (a b d : Nat) : a / d + b / d ≤ (a + b) / d := by
  rcases Nat.eq_zero_or_pos d with h | h
  · subst h; simp
  · rw [Nat.le_div_iff_mul_le h, Nat.add_mul]
    exact Nat.add_le_add (Nat.div_mul_le_self a d) (Nat.div_mul_le_self b d)

theorem div_mul_le_mul_div (a r d : Nat) : a / d * r ≤ a * r / d := by
  rcases Nat.eq_zero_or_pos d with h | h
  · subst h; simp
  · rw [Nat.le_div_iff_mul_le h]
    have h1 : a / d * r * d = a / d * d * r := by ring
    rw [h1]
    exact Nat.mul_le_mul_right r (Nat.div_mul_le_self a d)

/-- The refill step: the token count grows by at most the floored-seconds
budget of the `lastFill` movement, stays capped at `burst`, and `lastFill`
moves forward but never past `now`. -/
theorem refillBucket_spec (rps burst now : Nat) (b : AgentBucket)
    (hlf : b.lastFill ≤ now) (htok : b.tokens ≤ burst) :
    (refillBucket rps burst now b).tokens ≤
      b.tokens + ((refillBucket rps burst now b).lastFill - b.lastFill) /
        nsPerSecond * rps ∧
    (refillBucket rps burst now b).tokens ≤ burst ∧
    b.lastFill ≤ (refillBucket rps burst now b).lastFill ∧
    (refillBucket rps burst now b).lastFill ≤ now := by
  unfold refillBucket
  by_cases h : 0 < (now - b.lastFill) / nsPerSecond * rps
  · simp only [if_pos h]
    exact ⟨Nat.min_le_left _ _, Nat.min_le_right _ _, hlf, le_refl _⟩
  · simp only [if_neg h]
    refine ⟨?_, htok, le_refl _, hlf⟩
    simp

/-- One `AllowRequest` on a bucket in hand: the admissions-plus-tokens
potential grows by at most the refill budget; capacity, and the `lastFill`
bounds, are maintained. -/
theorem stepBucket_spec (rps burst t : Nat) (b : AgentBucket)
    (hlf : b.lastFill ≤ t) (htok : b.tokens ≤ burst) :
    ((if (stepBucket rps burst t b).1 then 1 else 0) +
        ((stepBucket rps burst t b).2).tokens ≤
      b.tokens +
        (((stepBucket rps burst t b).2).lastFill - b.lastFill) /
          nsPerSecond * rps) ∧
    ((stepBucket rps burst t b).2).tokens ≤ burst ∧
    b.lastFill ≤ ((stepBucket rps burst t b).2).lastFill ∧
    ((stepBucket rps burst t b).2).lastFill ≤ t := by
  obtain ⟨r1, r2, r3, r4⟩ := refillBucket_spec rps burst t b hlf htok
  unfold stepBucket
  by_cases h : 0 < (refillBucket rps burst t b).tokens
  · simp only [if_pos h]
    refine ⟨?_, ?_, r3, r4⟩
    · show 1 + ((refillBucket rps burst t b).tokens - 1) ≤
        b.tokens + ((refillBucket rps burst t b).lastFill - b.lastFill) /
          nsPerSecond * rps
      omega
    · show (refillBucket rps burst t b).tokens - 1 ≤ burst
      omega
  · simp only [if_neg h]
    exact ⟨by simpa using r1, r2, r3, r4⟩

/-- The potential invariant over a sorted call sequence on one bucket:
admissions plus remaining tokens never exceed the initial tokens plus the
total floored-seconds refill budget of the window the `lastFill` pointer
actually traversed. -/
theorem runBucket_invariant (rps burst : Nat) :
    ∀ (ts : List Nat) (b : AgentBucket), ts.Pairwise (· ≤ ·) →
      (∀ t ∈ ts, b.lastFill ≤ t) → b.tokens ≤ burst →
      ((runBucket rps burst ts b).1 +
          ((runBucket rps burst ts b).2).tokens ≤
        b.tokens +
          (((runBucket rps burst ts b).2).lastFill - b.lastFill) /
            nsPerSecond * rps) ∧
      ((runBucket rps burst ts b).2).tokens ≤ burst ∧
      b.lastFill ≤ ((runBucket rps burst ts b).2).lastFill ∧
      ∀ u, b.lastFill ≤ u → (∀ t ∈ ts, t ≤ u) →
        ((runBucket rps burst ts b).2).lastFill ≤ u := by
  intro ts
  induction ts with
  | nil =>
    intro b _ _ htok
    refine ⟨by simp [runBucket], htok, le_refl _, ?_⟩
    intro u hu _
    simpa [runBucket] using hu
  | cons t ts ih =>
    intro b hp hstart htok
    have hlf : b.lastFill ≤ t := hstart t (List.mem_cons_self t ts)
    obtain ⟨hle, hp2⟩ := List.pairwise_cons.mp hp
    obtain ⟨s1, s2, s3, s4⟩ := stepBucket_spec rps burst t b hlf htok
    have hstart2 : ∀ u ∈ ts, ((stepBucket rps burst t b).2).lastFill ≤ u :=
      fun u hu => le_trans s4 (hle u hu)
    obtain ⟨i1, i2, i3, i4⟩ :=
      ih ((stepBucket rps burst t b).2) hp2 hstart2 s2
    have hrw : runBucket rps burst (t :: ts) b =
        ((if (stepBucket rps burst t b).1 then 1 else 0) +
            (runBucket rps burst ts ((stepBucket rps burst t b).2)).1,
         (runBucket rps burst ts ((stepBucket rps burst t b).2)).2) := rfl
    rw [hrw]
    have hdiv := div_add_div_le
      (((stepBucket rps burst t b).2).lastFill - b.lastFill)
      ((runBucket rps burst ts ((stepBucket rps burst t b).2)).2.lastFill -
        ((stepBucket rps burst t b).2).lastFill) nsPerSecond
    have hnum : ((stepBucket rps burst t b).2).lastFill - b.lastFill +
        ((runBucket rps burst ts ((stepBucket rps burst t b).2)).2.lastFill -
          ((stepBucket rps burst t b).2).lastFill) =
        (runBucket rps burst ts ((stepBucket rps burst t b).2)).2.lastFill -
          b.lastFill := by
      omega
    rw [hnum] at hdiv
    have hmul := Nat.mul_le_mul_right rps hdiv
    rw [Nat.add_mul] at hmul
    refine ⟨?_, i2, le_trans s3 i3, ?_⟩
    · show (if (stepBucket rps burst t b).1 then 1 else 0) +
          (runBucket rps burst ts ((stepBucket rps burst t b).2)).1 +
          (runBucket rps burst ts ((stepBucket rps burst t b).2)).2.tokens ≤
        b.tokens +
          ((runBucket rps burst ts
              ((stepBucket rps burst t b).2)).2.lastFill - b.lastFill) /
            nsPerSecond * rps
      omega
    · intro u hu hall
      exact i4 u (le_trans s4 (hall t (List.mem_cons_self t ts)))
        (fun v hv => hall v (List.mem_cons_of_mem t hv))

/-- The last element of the nonempty list `t0 :: ts`. -/
def lastTime (t0 : Nat) : List Nat → Nat
  | [] => t0
  | t :: ts => lastTime t ts

/-- In a `≤`-sorted nonempty list every element is at most the last. -/
theorem le_lastTime :
    ∀ (ts : List Nat) (t0 : Nat), (t0 :: ts).Pairwise (· ≤ ·) →
      ∀ t ∈ t0 :: ts, t ≤ lastTime t0 ts := by
  intro ts
  induction ts with
  | nil =>
    intro t0 _ t ht
    simp only [List.mem_singleton] at ht
    simp [ht, lastTime]
  | cons y ys ih =>
    intro t0 hp t ht
    obtain ⟨hle, hp2⟩ := List.pairwise_cons.mp hp
    show t ≤ lastTime y ys
    rcases List.mem_cons.mp ht with rfl | hmem
    · exact le_trans (hle y (List.mem_cons_self y ys))
        (ih y hp2 y (List.mem_cons_self y ys))
    · exact ih y hp2 t hmem

/-- Running the limiter for one principal whose bucket is in the map is
running that bucket alone. -/
theorem runAllow_eq_runBucket (agentID : String) :
    ∀ (ts : List Nat) (rl : RateLimiter) (b : AgentBucket),
      rl.agents.lookup agentID = some b →
      (runAllow agentID ts rl).1 =
        (runBucket rl.requestsPerSecond rl.burstSize ts b).1 := by
  intro ts
  induction ts with
  | nil => intro rl b _; rfl
  | cons t ts ih =>
    intro rl b h
    have hb : allowRequest rl t agentID =
        ((stepBucket rl.requestsPerSecond rl.burstSize t b).1,
         { rl with agents := mapSet agentID (stepBucket rl.requestsPerSecond rl.burstSize t b).2 rl.agents }) := by
      unfold allowRequest
      rw [h]
      rfl
    have hrw : runAllow agentID (t :: ts) rl =
        ((if (allowRequest rl t agentID).1 then 1 else 0) +
            (runAllow agentID ts (allowRequest rl t agentID).2).1,
         (runAllow agentID ts (allowRequest rl t agentID).2).2) := rfl
    rw [hrw, hb]
    have h2 := lookup_mapSet_self agentID
      (stepBucket rl.requestsPerSecond rl.burstSize t b).2 rl.agents
    rw [ih _ _ h2]
    rfl

/-- The first call of a fresh principal creates the bucket full at the
call time; from there the run is a single-bucket run. -/
theorem runAllow_fresh (agentID : String) (t0 : Nat) (ts : List Nat)
    (rl : RateLimiter) (hfresh : rl.agents.lookup agentID = none) :
    (runAllow agentID (t0 :: ts) rl).1 =
      (runBucket rl.requestsPerSecond rl.burstSize (t0 :: ts)
        { tokens := rl.burstSize, lastFill := t0, requests := 0,
          lastReset := t0 }).1 := by
  have hb : allowRequest rl t0 agentID =
      ((stepBucket rl.requestsPerSecond rl.burstSize t0
          (AgentBucket.mk rl.burstSize t0 0 t0)).1,
       { rl with agents := mapSet agentID (stepBucket rl.requestsPerSecond rl.burstSize t0 (AgentBucket.mk rl.burstSize t0 0 t0)).2 rl.agents }) := by
    unfold allowRequest
    rw [hfresh]
    rfl
  have hrw : runAllow agentID (t0 :: ts) rl =
      ((if (allowRequest rl t0 agentID).1 then 1 else 0) +
          (runAllow agentID ts (allowRequest rl t0 agentID).2).1,
       (runAllow agentID ts (allowRequest rl t0 agentID).2).2) := rfl
  rw [hrw, hb]
  have h2 := lookup_mapSet_self agentID
    (stepBucket rl.requestsPerSecond rl.burstSize t0
      { tokens := rl.burstSize, lastFill := t0, requests := 0,
        lastReset := t0 }).2 rl.agents
  rw [runAllow_eq_runBucket agentID ts _ _ h2]
  rfl

/-- C3. For a single principal and any time-sorted sequence of allow
calls starting from no bucket, the number of admitted calls is at most
`burst + ⌊t · r⌋`, where `t` is the window (nanoseconds between the first
and last call, so `⌊t · r⌋ = (t_ns · r) / 10⁹`), `burst` the capacity and
`r` the per-second refill rate — because refill adds `⌊elapsed seconds⌋·r`
tokens capped at burst and moves the last-refill timestamp only when at
least one token was added. -/
theorem rate_conservation (rl : RateLimiter) (agentID : String)
    (t0 : Nat) (ts : List Nat)
    (hsorted : (t0 :: ts).Pairwise (· ≤ ·))
    (hfresh : rl.agents.lookup agentID = none) :
    (runAllow agentID (t0 :: ts) rl).1 ≤
      rl.burstSize +
        (lastTime t0 ts - t0) * rl.requestsPerSecond / nsPerSecond := by
  rw [runAllow_fresh agentID t0 ts rl hfresh]
  have hstart : ∀ t ∈ t0 :: ts,
      (AgentBucket.mk rl.burstSize t0 0 t0).lastFill ≤ t := by
    intro t ht
    rcases List.mem_cons.mp ht with rfl | hmem
    · exact le_refl t
    · exact (List.pairwise_cons.mp hsorted).1 t hmem
  obtain ⟨i1, i2, i3, i4⟩ := runBucket_invariant rl.requestsPerSecond
    rl.burstSize (t0 :: ts) (AgentBucket.mk rl.burstSize t0 0 t0)
    hsorted hstart (le_refl _)
  have hglast : ((runBucket rl.requestsPerSecond rl.burstSize (t0 :: ts)
      (AgentBucket.mk rl.burstSize t0 0 t0)).2).lastFill ≤
      lastTime t0 ts := by
    refine i4 _ ?_ ?_
    · exact le_lastTime ts t0 hsorted t0 (List.mem_cons_self t0 ts)
    · intro v hv
      exact le_lastTime ts t0 hsorted v hv
  have hmono : (((runBucket rl.requestsPerSecond rl.burstSize (t0 :: ts)
      (AgentBucket.mk rl.burstSize t0 0 t0)).2).lastFill - t0) /
        nsPerSecond * rl.requestsPerSecond ≤
      (lastTime t0 ts - t0) / nsPerSecond * rl.requestsPerSecond :=
    Nat.mul_le_mul_right _
      (Nat.div_le_div_right (Nat.sub_le_sub_right hglast t0))
  have hswap := div_mul_le_mul_div (lastTime t0 ts - t0)
    rl.requestsPerSecond nsPerSecond
  have hproj1 : (AgentBucket.mk rl.burstSize t0 0 t0).tokens =
    rl.burstSize := rfl
  have hproj2 : (AgentBucket.mk rl.burstSize t0 0 t0).lastFill = t0 := rfl
  rw [hproj1, hproj2] at i1
  omega

/-- Witness for C3: two calls of a fresh principal, 1.5 s apart, at the
default configuration admit at most `50 + (1.5 s · 100) / 1 s = 200`. -/
theorem rate_conservation_witness :
    (runAllow "a" [0, 1500000000] (newRateLimiter 100 50)).1 ≤
      (newRateLimiter 100 50).burstSize +
        (lastTime 0 [1500000000] - 0) *
          (newRateLimiter 100 50).requestsPerSecond / nsPerSecond :=
  rate_conservation (newRateLimiter 100 50) "a" 0 [1500000000]
    (by decide) rfl

end ZeroTrust
